import Mathlib

/-!
Verification development for the wordpress-scraper repository.

This file gives a shallow embedding, in Lean 4, of the parts of the
program that the specification's claims are about:

* `database.py` — the entity store (SQLite `posts` table with
  `INSERT OR REPLACE` keyed on the `id` primary key), modelled as a list
  of `PostRow` values with at most one row per id maintained by
  `insertOrReplace`.
* `metadata.py` — the progress store (`scrape_metadata` table), modelled
  as a list of `MetaRow` values kept newest-first: SQLite assigns
  `AUTOINCREMENT` ids in insertion order, so `SELECT ... ORDER BY id DESC
  LIMIT 1` returns the first matching element of the newest-first list,
  and an SQL `UPDATE ... WHERE id = ?` of that row is an in-place
  replacement of the first matching element.
* `api_client.py` — `fetch_page` together with the `urllib3 Retry`
  policy configured in `_create_session` (total=3, status_forcelist
  [429, 500, 502, 503, 504]).
* `cli.py` — the `run_scraper` orchestrator, modelled as a pure function
  from a configuration, mode flags, initial stores and a remote-endpoint
  model to a run outcome, the final stores and an event trace recording
  the order of network requests, checkpoint writes, batch upserts and
  finalize writes.

Timestamps (`datetime.utcnow().isoformat()`) are abstracted as a single
opaque string parameter `now`; no claim depends on their values.  The
record normalizer (`extract_post_fields` in `utils.py`) is a pure,
per-record transform declared an external collaborator by the spec; the
model therefore lets the remote deliver records already in the persisted
`PostRow` shape, keeping the fields the orchestrator itself inspects
(`id`, `modified_gmt`).
-/

/-- A row of the `posts` table (schema of `DatabaseManager.CREATE_TABLE_SQL`
in `database.py`): `id INTEGER PRIMARY KEY`, the remaining columns
nullable TEXT/INTEGER. -/
structure PostRow where
  id : Int
  date : Option String := none
  date_gmt : Option String := none
  guid : Option String := none
  modified : Option String := none
  modified_gmt : Option String := none
  slug : Option String := none
  status : Option String := none
  type : Option String := none
  link : Option String := none
  title : Option String := none
  content : Option String := none
  excerpt : Option String := none
  author : Option Int := none
  featured_media : Option Int := none
  comment_status : Option String := none
  ping_status : Option String := none
  sticky : Option Int := none
  template : Option String := none
  format : Option String := none
  meta : Option String := none
  categories : Option String := none
  tags : Option String := none
  area : Option String := none
  alerts : Option String := none
  countries : Option String := none
  class_list : Option String := none
  deriving DecidableEq

/-- `INSERT OR REPLACE INTO posts ...` (`INSERT_POST_SQL` executed by
`DatabaseManager.insert_post`): if a row with the same primary key exists
it is replaced in place, otherwise a new row is appended. -/
def insertOrReplace (rows : List PostRow) (p : PostRow) : List PostRow :=
  if rows.any (fun r => decide (r.id = p.id)) then
    rows.map (fun r => if r.id = p.id then p else r)
  else
    rows ++ [p]

/-- `DatabaseManager.insert_posts_batch`: `executemany` of
`INSERT_POST_SQL` over the batch, i.e. the sequential fold of
`insertOrReplace`, committed as one transaction. -/
def insert_posts_batch (rows : List PostRow) (posts : List PostRow) : List PostRow :=
  posts.foldl insertOrReplace rows

/-- `DatabaseManager.get_post_count`: `SELECT COUNT(*) FROM posts`. -/
def get_post_count (rows : List PostRow) : Nat :=
  rows.length

/-- `DatabaseManager.post_exists`: `SELECT 1 FROM posts WHERE id = ? LIMIT 1`. -/
def post_exists (rows : List PostRow) (postId : Int) : Bool :=
  rows.any (fun r => decide (r.id = postId))

/-- A row of the `scrape_metadata` table
(`MetadataManager.CREATE_TABLE_SQL` in `metadata.py`).  The surrogate
`id INTEGER PRIMARY KEY AUTOINCREMENT` column is represented by the
position in a newest-first list instead of an explicit field. -/
structure MetaRow where
  wordpressUrl : String
  lastScrapeDate : String
  latestPostModified : Option String := none
  totalPostsScraped : Nat := 0
  lastPageScraped : Nat := 0
  nextPageToFetch : Nat := 1
  searchQuery : Option String := none
  scrapeStatus : String := "in_progress"
  deriving DecidableEq

/-- SQL `UPDATE ... WHERE id = ?` against the row found by
`SELECT id ... WHERE wordpress_url = ? ORDER BY id DESC LIMIT 1`:
replace the first matching row of the newest-first list in place. -/
def replaceFirstMatching (rows : List MetaRow) (url : String) (f : MetaRow → MetaRow) :
    List MetaRow :=
  match rows with
  | [] => []
  | r :: rest =>
    if r.wordpressUrl = url then f r :: rest
    else r :: replaceFirstMatching rest url f

/-- `MetadataManager.get_latest_metadata`: the most recent row for the
URL (`ORDER BY id DESC LIMIT 1` = first match in the newest-first list). -/
def get_latest_metadata (rows : List MetaRow) (url : String) : Option MetaRow :=
  rows.find? (fun r => decide (r.wordpressUrl = url))

/-- `MetadataManager.get_next_page_to_fetch`. -/
def get_next_page_to_fetch (rows : List MetaRow) (url : String) : Option Nat :=
  (get_latest_metadata rows url).map (fun m => m.nextPageToFetch)

/-- `MetadataManager.get_last_page_scraped`. -/
def get_last_page_scraped (rows : List MetaRow) (url : String) : Option Nat :=
  (get_latest_metadata rows url).map (fun m => m.lastPageScraped)

/-- `MetadataManager.get_latest_modified_date`: `None` when there is no
row, and the (possibly NULL) `latest_post_modified` value otherwise. -/
def get_latest_modified_date (rows : List MetaRow) (url : String) : Option String :=
  (get_latest_metadata rows url).bind (fun m => m.latestPostModified)

/-- `MetadataManager.get_search_query`. -/
def get_search_query (rows : List MetaRow) (url : String) : Option String :=
  (get_latest_metadata rows url).bind (fun m => m.searchQuery)

/-- `MetadataManager.update_progress` (the per-page checkpoint write):
`next_page = page + 1`; the most recent row for the URL is updated in
place (keeping its `latest_post_modified` and `search_query`), or a new
row is inserted when none exists; status is set to `'in_progress'`. -/
def update_progress (rows : List MetaRow) (url now : String) (page postsCount : Nat) :
    List MetaRow :=
  match rows.find? (fun r => decide (r.wordpressUrl = url)) with
  | some _ =>
    replaceFirstMatching rows url (fun r =>
      { r with
        lastScrapeDate := now
        totalPostsScraped := postsCount
        lastPageScraped := page
        nextPageToFetch := page + 1
        scrapeStatus := "in_progress" })
  | none =>
    { wordpressUrl := url
      lastScrapeDate := now
      totalPostsScraped := postsCount
      lastPageScraped := page
      nextPageToFetch := page + 1
      scrapeStatus := "in_progress" } :: rows

/-- The `next_page` defaulting of `MetadataManager.save_scrape_metadata`:
`next_page = last_page + 1 if last_page > 0 else 1` when not provided. -/
def resolveNextPage (nextPageArg : Option Nat) (lastPage : Nat) : Nat :=
  match nextPageArg with
  | some n => n
  | none => if lastPage > 0 then lastPage + 1 else 1

/-- `MetadataManager.save_scrape_metadata` (the finalize write): update
every field of the most recent row for the URL, or insert a new row when
none exists. -/
def save_scrape_metadata (rows : List MetaRow) (url now : String)
    (latestPostModified : Option String) (totalPosts lastPage : Nat)
    (nextPageArg : Option Nat) (searchQuery : Option String) (status : String) :
    List MetaRow :=
  match rows.find? (fun r => decide (r.wordpressUrl = url)) with
  | some _ =>
    replaceFirstMatching rows url (fun r =>
      { wordpressUrl := r.wordpressUrl
        lastScrapeDate := now
        latestPostModified := latestPostModified
        totalPostsScraped := totalPosts
        lastPageScraped := lastPage
        nextPageToFetch := resolveNextPage nextPageArg lastPage
        searchQuery := searchQuery
        scrapeStatus := status })
  | none =>
    { wordpressUrl := url
      lastScrapeDate := now
      latestPostModified := latestPostModified
      totalPostsScraped := totalPosts
      lastPageScraped := lastPage
      nextPageToFetch := resolveNextPage nextPageArg lastPage
      searchQuery := searchQuery
      scrapeStatus := status } :: rows

/-- One HTTP attempt's result as `WordPressClient.fetch_page` sees it
after `requests` returns: a 2xx response with a JSON body, a 2xx
response whose body fails JSON decoding (`response.json()` raises
`ValueError`), an HTTP error status (>= 400, for which
`raise_for_status` raises `HTTPError`), or a connection-level failure
(`RequestException`). -/
inductive AttemptResponse where
  | ok (posts : List PostRow)
  | okBadJson
  | status (code : Nat)
  | netError
  deriving DecidableEq

/-- `status_forcelist` of the `urllib3 Retry` configured in
`WordPressClient._create_session`. -/
def retryStatusForcelist : List Nat := [429, 500, 502, 503, 504]

/-- `Retry(total=3, ...)` in `WordPressClient._create_session`. -/
def retryTotal : Nat := 3

/-- What a `session.get` for one page produces through the retry
adapter: either a response handed to `fetch_page`, or retry exhaustion
(`MaxRetryError`, surfaced by `requests` as a `RetryError`, a
`RequestException`). -/
inductive SessionOutcome where
  | resp (r : AttemptResponse)
  | exhausted
  deriving DecidableEq

/-- The `urllib3 Retry` loop: a forcelist status or a connection error
consumes one retry and reissues the request; any other response is
returned; exhausting the retry budget raises. `attempts i` is the
remote's response to the i-th attempt. -/
def sessionGetAux (attempts : Nat → AttemptResponse) (retriesLeft idx : Nat) :
    SessionOutcome :=
  match attempts idx with
  | .ok posts => .resp (.ok posts)
  | .okBadJson => .resp .okBadJson
  | .status c =>
    if c ∈ retryStatusForcelist then
      match retriesLeft with
      | 0 => .exhausted
      | r + 1 => sessionGetAux attempts r (idx + 1)
    else .resp (.status c)
  | .netError =>
    match retriesLeft with
    | 0 => .exhausted
    | r + 1 => sessionGetAux attempts r (idx + 1)

/-- `self.session.get(...)` inside `fetch_page`, with the session's
retry budget. -/
def sessionGet (attempts : Nat → AttemptResponse) : SessionOutcome :=
  sessionGetAux attempts retryTotal 0

/-- `WordPressAPIError` as raised by `fetch_page`: an HTTP error other
than 400, a request/retry error, or an invalid JSON body. -/
inductive APIError where
  | httpError (page : Nat) (code : Nat)
  | requestError (page : Nat)
  | invalidJson (page : Nat)
  deriving DecidableEq

/-- `WordPressClient.fetch_page`: a successful response returns the
decoded posts; `HTTPError` with status exactly 400 is treated as "page
out of range" and returns the empty list; any other `HTTPError`, any
`RequestException` (including retry exhaustion) and any JSON decode
failure raise `WordPressAPIError`. -/
def fetch_page (attempts : Nat → AttemptResponse) (page : Nat) :
    Except APIError (List PostRow) :=
  match sessionGet attempts with
  | .resp (.ok posts) => .ok posts
  | .resp .okBadJson => .error (.invalidJson page)
  | .resp (.status c) => if c = 400 then .ok [] else .error (.httpError page c)
  | .resp .netError => .error (.requestError page)
  | .exhausted => .error (.requestError page)

/-- What one page-request of the orchestrator's fetch loop produces, the
remote transport abstracted: `posts` is the list `fetch_page` returned
(empty both on a 2xx empty page and on the 400 "out of range" signal),
`fatal` is a raised `WordPressAPIError`. -/
inductive FetchResult where
  | posts (ps : List PostRow)
  | fatal
  deriving DecidableEq

/-- The remote WordPress endpoint as `run_scraper` exercises it:
`valid` is the outcome of `validate_endpoint`, `page n` the outcome of
the paging request for page `n` (the configured `per_page` and search
parameters applied), and `modified after search` the aggregated outcome
of `fetch_modified_since after search` (which pages internally through
the date-filtered result set). -/
structure Remote where
  valid : Bool := true
  page : Nat → FetchResult
  modified : String → Option String → FetchResult

/-- Observable steps of one `run_scraper` run, in execution order:
network requests, durable writes to the two stores, nothing else. -/
inductive Event where
  | validateEndpoint
  | createMetaTable
  | createPostsTable
  | getTotalCount
  | fetchPage (page : Nat)
  | fetchModifiedSince (after : String) (search : Option String)
  | checkpoint (page : Nat) (postsCount : Nat)
  | upsertBatch (count : Nat)
  | finalize (status : String) (lastPage : Nat)
  deriving DecidableEq

/-- Python truthiness of an optional string (`if stored_search`,
`if not latest_modified`): `None` and `''` are falsy. -/
def truthyStr : Option String → Bool
  | none => false
  | some s => decide (s ≠ "")

/-- Python truthiness of an optional integer (`if next_page and
last_page`, `if max_pages`): `None` and `0` are falsy. -/
def truthyNat : Option Nat → Bool
  | none => false
  | some n => decide (n ≠ 0)

/-- The search-consistency validation repeated in the resume and update
blocks of `run_scraper` (`if stored_search != config.search:` followed
by the three truthiness-guarded error branches): the run aborts exactly
when the stored and requested filters differ and at least one of them is
truthy. -/
def searchMismatchAborts (stored requested : Option String) : Bool :=
  decide (stored ≠ requested) && (truthyStr stored || truthyStr requested)

/-- `if max_pages and pages_fetched >= max_pages:` in
`WordPressClient.fetch_all`. -/
def atMaxPages (maxPages : Option Nat) (pagesFetched : Nat) : Bool :=
  match maxPages with
  | some m => decide (m ≠ 0) && decide (pagesFetched ≥ m)
  | none => false

/-- The latest-modification tracking in `run_scraper`'s processing loop:
`if processed.get('modified_gmt'):` then take it when no current maximum
or when strictly greater (Python string comparison). -/
def trackLatest (cur : Option String) (m : Option String) : Option String :=
  match m with
  | none => cur
  | some s =>
    if s = "" then cur
    else
      match cur with
      | none => some s
      | some c => if c < s then some s else some c

/-- The fields of `ScraperConfig` that `run_scraper`'s control flow
reads (the output paths, export formats and HTML-stripping flag feed the
excluded collaborators). -/
structure ScraperCfg where
  wordpressUrl : String
  search : Option String := none
  perPage : Nat := 100
  maxPages : Option Nat := none
  startPage : Nat := 1

/-- How one `run_scraper` call ends: its `True`/`False` return value, or
a `KeyboardInterrupt` propagating out of it (there is no handler inside
`run_scraper`; `main` catches it and exits with code 130). -/
inductive RunOutcome where
  | success
  | failure
  | interrupted
  deriving DecidableEq

/-- `sys.exit` code produced by `main` for each way `run_scraper` ends. -/
def mainExitCode : RunOutcome → Nat
  | .success => 0
  | .failure => 1
  | .interrupted => 130

/-- Result of a modelled `run_scraper` call: outcome, final progress
store, final entity store, and the event trace in execution order. -/
structure RunResult where
  outcome : RunOutcome
  store : List MetaRow
  db : List PostRow
  trace : List Event
  deriving DecidableEq

/-- Outcome of the `for page_posts in client.fetch_all(...)` loop in
`run_scraper`. -/
inductive LoopOut where
  | finished (acc : List PostRow) (lastCompleted : Nat) (store : List MetaRow)
      (trace : List Event)
  | fatalErr (store : List MetaRow) (trace : List Event)
  | interruptedRun (store : List MetaRow) (trace : List Event)
  | fuelOut (store : List MetaRow) (trace : List Event)
  deriving DecidableEq

/-- Prefix the trace of a loop outcome with earlier events. -/
def LoopOut.withTrace (pre : List Event) : LoopOut → LoopOut
  | .finished a l s t => .finished a l s (pre ++ t)
  | .fatalErr s t => .fatalErr s (pre ++ t)
  | .interruptedRun s t => .interruptedRun s (pre ++ t)
  | .fuelOut s t => .fuelOut s (pre ++ t)

/-- The paging loop of `run_scraper` (lines 236-252 of `cli.py`,
driving `WordPressClient.fetch_all`): stop at the `max_pages` ceiling or
on an empty page; on a fetched non-empty page extend the in-memory
accumulator and write the `update_progress` checkpoint, then advance.
A raised `WordPressAPIError` ends the run as fatal.  `interrupt = some
k` models a `KeyboardInterrupt` delivered during the inter-page
`time.sleep` that follows page `k`'s checkpoint (the generator's delay
runs after the consumer body).  `fuel` bounds the recursion; every
theorem supplies enough fuel for its run, so the `fuelOut` artifact is
never reached there. -/
def pagingLoop (remote : Remote) (url now : String) (maxPages : Option Nat)
    (interrupt : Option Nat) (fuel page pagesFetched : Nat) (acc : List PostRow)
    (lastCompleted : Nat) (store : List MetaRow) : LoopOut :=
  match fuel with
  | 0 => .fuelOut store []
  | f + 1 =>
    if atMaxPages maxPages pagesFetched then .finished acc lastCompleted store []
    else
      match remote.page page with
      | .fatal => .fatalErr store [.fetchPage page]
      | .posts [] => .finished acc lastCompleted store [.fetchPage page]
      | .posts ps =>
        let acc2 := acc ++ ps
        let store2 := update_progress store url now page acc2.length
        let pre : List Event := [.fetchPage page, .checkpoint page acc2.length]
        if interrupt = some page then .interruptedRun store2 pre
        else
          (pagingLoop remote url now maxPages interrupt f (page + 1)
            (pagesFetched + 1) acc2 page store2).withTrace pre

/-- The tail of `run_scraper` shared by the paging-loop path and the
update-mode path with a non-empty result (lines 254-297 of `cli.py`):
track the maximum `modified_gmt`, insert the whole accumulated batch if
non-empty, then write the `save_scrape_metadata` finalize row with
status `'complete'`. -/
def finishRun (url now : String) (search : Option String) (store : List MetaRow)
    (db : List PostRow) (trace : List Event) (allPosts : List PostRow)
    (lastPageCompleted : Nat) : RunResult :=
  let latestGmt := allPosts.foldl (fun c p => trackLatest c p.modified_gmt) none
  let db2 := if allPosts.isEmpty then db else insert_posts_batch db allPosts
  let t2 := if allPosts.isEmpty then trace else trace ++ [.upsertBatch allPosts.length]
  let store2 := save_scrape_metadata store url now latestGmt allPosts.length
    lastPageCompleted none search "complete"
  ⟨.success, store2, db2, t2 ++ [.finalize "complete" lastPageCompleted]⟩

/-- The standard-scrape branch of `run_scraper` (`if not update:`),
beginning with the informational `get_total_posts_count` request. -/
def scrapeAndFinish (cfg : ScraperCfg) (now : String) (store : List MetaRow)
    (db : List PostRow) (remote : Remote) (trace : List Event) (startPage : Nat)
    (interrupt : Option Nat) (fuel : Nat) : RunResult :=
  let t := trace ++ [.getTotalCount]
  match pagingLoop remote cfg.wordpressUrl now cfg.maxPages interrupt fuel startPage
      0 [] 0 store with
  | .finished acc lastC s tr => finishRun cfg.wordpressUrl now cfg.search s db (t ++ tr) acc lastC
  | .fatalErr s tr => ⟨.failure, s, db, t ++ tr⟩
  | .interruptedRun s tr => ⟨.interrupted, s, db, t ++ tr⟩
  | .fuelOut s tr => ⟨.failure, s, db, t ++ tr⟩

/-- `run_scraper` (`cli.py`): validate the endpoint, initialize the two
stores, run the resume block, then the update block, then either the
update-mode fetch or the standard paging loop, and finalize.  The
`--start-page`-vs-`--resume` conflict only logs a warning, so the
`start_page_arg` parameter is not modelled. -/
def runScraper (cfg : ScraperCfg) (update resume : Bool) (store0 : List MetaRow)
    (db0 : List PostRow) (remote : Remote) (now : String) (interrupt : Option Nat)
    (fuel : Nat) : RunResult :=
  let url := cfg.wordpressUrl
  if !remote.valid then ⟨.failure, store0, db0, [.validateEndpoint]⟩
  else
    let t1 : List Event := [.validateEndpoint, .createMetaTable, .createPostsTable]
    if resume && searchMismatchAborts (get_search_query store0 url) cfg.search then
      ⟨.failure, store0, db0, t1⟩
    else
      let startPage :=
        if resume && truthyNat (get_next_page_to_fetch store0 url)
            && truthyNat (get_last_page_scraped store0 url) then
          (get_next_page_to_fetch store0 url).getD cfg.startPage
        else cfg.startPage
      if update then
        if searchMismatchAborts (get_search_query store0 url) cfg.search then
          ⟨.failure, store0, db0, t1⟩
        else
          match get_latest_modified_date store0 url with
          | some t =>
            if t = "" then scrapeAndFinish cfg now store0 db0 remote t1 startPage interrupt fuel
            else
              let t2 := t1 ++ [.fetchModifiedSince t cfg.search]
              match remote.modified t cfg.search with
              | .fatal => ⟨.failure, store0, db0, t2⟩
              | .posts [] => ⟨.success, store0, db0, t2⟩
              | .posts ps => finishRun url now cfg.search store0 db0 t2 ps 0
          | none => scrapeAndFinish cfg now store0 db0 remote t1 startPage interrupt fuel
      else scrapeAndFinish cfg now store0 db0 remote t1 startPage interrupt fuel

/-- Events produced inside the paging loop: page requests and
checkpoint writes only. -/
def isLoopEvent : Event → Bool
  | .fetchPage _ => true
  | .checkpoint _ _ => true
  | _ => false

/-- Recognize a finalize (`save_scrape_metadata`) write in a trace. -/
def isFinalizeEvent : Event → Bool
  | .finalize _ _ => true
  | _ => false

/-- Recognize a page-numbered fetch in a trace. -/
def isFetchPageEvent : Event → Bool
  | .fetchPage _ => true
  | _ => false

/-- Looking up the most recent row after an in-place update of the most
recent row: provided the update keeps the URL, the lookup returns the
updated row. -/
theorem find_replaceFirstMatching (rows : List MetaRow) (url : String)
    (f : MetaRow → MetaRow) (hf : ∀ r, (f r).wordpressUrl = r.wordpressUrl) :
    (replaceFirstMatching rows url f).find? (fun r => decide (r.wordpressUrl = url)) =
      ((rows.find? (fun r => decide (r.wordpressUrl = url))).map f) := by
  induction rows with
  | nil => simp [replaceFirstMatching]
  | cons r rest ih =>
    by_cases h : r.wordpressUrl = url
    · simp [replaceFirstMatching, h, List.find?, hf r]
    · simp [replaceFirstMatching, h, List.find?, ih]

/-- After a checkpoint write for page `page` with cumulative count
`postsCount`, the most recent row for the URL records exactly that
progress: `last_page_scraped = page`, `next_page_to_fetch = page + 1`,
`total_posts_scraped = postsCount`, status `in_progress`. -/
theorem get_latest_update_progress (rows : List MetaRow) (url now : String)
    (page postsCount : Nat) :
    ∃ r, get_latest_metadata (update_progress rows url now page postsCount) url = some r ∧
      r.wordpressUrl = url ∧ r.lastPageScraped = page ∧ r.nextPageToFetch = page + 1 ∧
      r.totalPostsScraped = postsCount ∧ r.scrapeStatus = "in_progress" := by
  cases hfind : rows.find? (fun r => decide (r.wordpressUrl = url)) with
  | none =>
    refine ⟨{ wordpressUrl := url, lastScrapeDate := now, totalPostsScraped := postsCount,
              lastPageScraped := page, nextPageToFetch := page + 1,
              scrapeStatus := "in_progress" }, ?_, rfl, rfl, rfl, rfl, rfl⟩
    unfold update_progress
    rw [hfind]
    simp [get_latest_metadata, List.find?]
  | some r0 =>
    have hr0 : r0.wordpressUrl = url := by
      have := List.find?_some hfind
      simpa using this
    refine ⟨{ r0 with lastScrapeDate := now, totalPostsScraped := postsCount, lastPageScraped := page, nextPageToFetch := page + 1, scrapeStatus := "in_progress" }, ?_, hr0, rfl, rfl, rfl, rfl⟩
    unfold update_progress
    simp only [hfind]
    rw [get_latest_metadata,
      find_replaceFirstMatching rows url
        (fun r => { r with lastScrapeDate := now, totalPostsScraped := postsCount, lastPageScraped := page, nextPageToFetch := page + 1, scrapeStatus := "in_progress" })
        (fun r => rfl),
      hfind]
    rfl

/-- After a finalize write, the most recent row for the URL is exactly
the written row, its `next_page_to_fetch` resolved by
`resolveNextPage`. -/
theorem get_latest_save_scrape_metadata (rows : List MetaRow) (url now : String)
    (latestPostModified : Option String) (totalPosts lastPage : Nat)
    (nextPageArg : Option Nat) (searchQuery : Option String) (status : String) :
    get_latest_metadata
        (save_scrape_metadata rows url now latestPostModified totalPosts lastPage
          nextPageArg searchQuery status) url =
      some { wordpressUrl := url, lastScrapeDate := now,
             latestPostModified := latestPostModified,
             totalPostsScraped := totalPosts, lastPageScraped := lastPage,
             nextPageToFetch := resolveNextPage nextPageArg lastPage,
             searchQuery := searchQuery, scrapeStatus := status } := by
  cases hfind : rows.find? (fun r => decide (r.wordpressUrl = url)) with
  | none =>
    unfold save_scrape_metadata
    simp only [hfind]
    simp [get_latest_metadata, List.find?]
  | some r0 =>
    have hr0 : r0.wordpressUrl = url := by
      have := List.find?_some hfind
      simpa using this
    unfold save_scrape_metadata
    simp only [hfind]
    rw [get_latest_metadata,
      find_replaceFirstMatching rows url
        (fun r => { wordpressUrl := r.wordpressUrl, lastScrapeDate := now, latestPostModified := latestPostModified, totalPostsScraped := totalPosts, lastPageScraped := lastPage, nextPageToFetch := resolveNextPage nextPageArg lastPage, searchQuery := searchQuery, scrapeStatus := status })
        (fun r => rfl),
      hfind]
    simp [hr0]

/-- C2: after every checkpoint write recording page `N` as completed with
cumulative count `C`, the authoritative (most recent) session row for
the source has `next_page_to_fetch = N + 1`, `last_page_scraped = N` and
`total_posts_scraped = C`; and after any finalize write as issued by the
orchestrator (`next_page` left to be recomputed), the row satisfies
`next_page_to_fetch = last_page_scraped + 1`. -/
theorem update_progress_checkpoint_monotonic (rows : List MetaRow) (url now : String)
    (N C : Nat) (latest : Option String) (tp lp : Nat) (sq : Option String)
    (st now2 : String) :
    (∃ r, get_latest_metadata (update_progress rows url now N C) url = some r ∧
      r.nextPageToFetch = N + 1 ∧ r.lastPageScraped = N ∧ r.totalPostsScraped = C ∧
      r.nextPageToFetch = r.lastPageScraped + 1) ∧
    (∃ r, get_latest_metadata (save_scrape_metadata rows url now2 latest tp lp none sq st)
        url = some r ∧ r.nextPageToFetch = r.lastPageScraped + 1) := by
  constructor
  · obtain ⟨r, hget, _, hlast, hnext, htot, _⟩ :=
      get_latest_update_progress rows url now N C
    exact ⟨r, hget, hnext, hlast, htot, by rw [hnext, hlast]⟩
  · refine ⟨_, get_latest_save_scrape_metadata rows url now2 latest tp lp none sq st, ?_⟩
    show resolveNextPage none lp = lp + 1
    cases lp with
    | zero => rfl
    | succ n => simp [resolveNextPage]

/-- The ids stored after an upsert: unchanged when the id was already
present (all rows with that id are overwritten in place), extended by
the new id otherwise. -/
theorem ids_insertOrReplace (rows : List PostRow) (p : PostRow) :
    (insertOrReplace rows p).map (fun r => r.id) =
      (if rows.any (fun r => decide (r.id = p.id)) then rows.map (fun r => r.id)
       else rows.map (fun r => r.id) ++ [p.id]) := by
  unfold insertOrReplace
  by_cases h : rows.any (fun r => decide (r.id = p.id))
  · rw [if_pos h, if_pos h, List.map_map]
    apply List.map_congr_left
    intro r _
    by_cases hr : r.id = p.id
    · simp [hr]
    · simp [hr]
  · rw [if_neg h, if_neg h]
    simp

/-- Upserting preserves the PRIMARY KEY invariant: at most one row per
id. -/
theorem nodup_ids_insertOrReplace (rows : List PostRow) (p : PostRow)
    (h : (rows.map (fun r => r.id)).Nodup) :
    ((insertOrReplace rows p).map (fun r => r.id)).Nodup := by
  rw [ids_insertOrReplace]
  by_cases hany : rows.any (fun r => decide (r.id = p.id))
  · rw [if_pos hany]; exact h
  · rw [if_neg hany]
    have hnotmem : p.id ∉ rows.map (fun r => r.id) := by
      intro hmem
      obtain ⟨r, hr, hid⟩ := List.mem_map.mp hmem
      exact hany (List.any_eq_true.mpr ⟨r, hr, by simp [hid]⟩)
    rw [List.nodup_append]
    refine ⟨h, List.nodup_singleton _, ?_⟩
    intro a ha hb
    rw [List.mem_singleton] at hb
    subst hb
    exact hnotmem ha

/-- Under the PRIMARY KEY invariant, a present id matches exactly one
row. -/
theorem countP_id_eq_one (l : List PostRow) (x : Int)
    (hnd : (l.map (fun r => r.id)).Nodup) (hmem : x ∈ l.map (fun r => r.id)) :
    l.countP (fun r => decide (r.id = x)) = 1 := by
  induction l with
  | nil => simp at hmem
  | cons r rest ih =>
    rw [List.map_cons, List.nodup_cons] at hnd
    rw [List.countP_cons]
    by_cases h : r.id = x
    · have hzero : rest.countP (fun r => decide (r.id = x)) = 0 := by
        rw [List.countP_eq_zero]
        intro a ha
        simp only [decide_eq_true_eq]
        intro hax
        exact hnd.1 (h ▸ hax ▸ List.mem_map_of_mem (fun r => r.id) ha)
      simp [h, hzero]
    · have hmem2 : x ∈ rest.map (fun r => r.id) := by
        rcases List.mem_cons.mp hmem with h1 | h1
        · exact absurd h1.symm h
        · exact h1
      simp [h, ih hnd.2 hmem2]

/-- Overwriting every row of a given id and then filtering for that id
yields as many copies of the new row as there were matches. -/
theorem filter_map_replace_id (l : List PostRow) (p2 : PostRow) :
    (l.map (fun r => if r.id = p2.id then p2 else r)).filter
        (fun r => decide (r.id = p2.id)) =
      List.replicate (l.countP (fun r => decide (r.id = p2.id))) p2 := by
  induction l with
  | nil => rfl
  | cons r rest ih =>
    rw [List.map_cons, List.countP_cons]
    by_cases h : r.id = p2.id
    · simp [h, List.filter_cons, ih, List.replicate_succ]
    · simp [h, List.filter_cons, ih]

/-- C5: for every record identity, upserting the same identity twice
(with possibly different field values) leaves exactly one stored row,
whose fields equal the second record's values, and the second upsert
does not change the stored row count; no duplicate row is created for an
identity.  The `Nodup` hypothesis is the PRIMARY KEY invariant of the
`posts` table, which `nodup_ids_insertOrReplace` shows every upsert
preserves (it holds of the empty table). -/
theorem insert_twice_same_id_idempotent (rows : List PostRow) (p1 p2 : PostRow)
    (hnd : (rows.map (fun r => r.id)).Nodup) (hid : p1.id = p2.id) :
    (insertOrReplace (insertOrReplace rows p1) p2).filter
        (fun r => decide (r.id = p2.id)) = [p2] ∧
    get_post_count (insertOrReplace (insertOrReplace rows p1) p2) =
      get_post_count (insertOrReplace rows p1) := by
  have hnd1 : ((insertOrReplace rows p1).map (fun r => r.id)).Nodup :=
    nodup_ids_insertOrReplace rows p1 hnd
  have hmem : p2.id ∈ (insertOrReplace rows p1).map (fun r => r.id) := by
    rw [ids_insertOrReplace]
    by_cases h : rows.any (fun r => decide (r.id = p1.id))
    · rw [if_pos h]
      obtain ⟨r, hr, hrid⟩ := List.any_eq_true.mp h
      rw [decide_eq_true_eq] at hrid
      exact hid ▸ hrid ▸ List.mem_map_of_mem (fun r => r.id) hr
    · rw [if_neg h]
      exact List.mem_append_right _ (by simp [hid])
  have hany : (insertOrReplace rows p1).any (fun r => decide (r.id = p2.id)) = true := by
    obtain ⟨r, hr, hrid⟩ := List.mem_map.mp hmem
    exact List.any_eq_true.mpr ⟨r, hr, by simp [hrid]⟩
  have hrepl : insertOrReplace (insertOrReplace rows p1) p2 =
      (insertOrReplace rows p1).map (fun r => if r.id = p2.id then p2 else r) := by
    conv =>
      lhs
      rw [insertOrReplace]
    rw [if_pos hany]
  constructor
  · rw [hrepl, filter_map_replace_id, countP_id_eq_one _ _ hnd1 hmem]
    rfl
  · rw [hrepl]
    simp [get_post_count]

/-- A post row carrying only an id and a modification timestamp;
fixture for concrete runs. -/
def samplePost (i : Int) (m : Option String) : PostRow :=
  { id := i, modified_gmt := m }

/-- Witness for C5 at a concrete input: an empty table, two records with
the same id and different titles. -/
theorem insert_twice_same_id_idempotent_witness :
    (([] : List PostRow).map (fun r => r.id)).Nodup ∧
    (insertOrReplace (insertOrReplace [] { samplePost 7 none with title := some "first" })
        { samplePost 7 none with title := some "second" }).filter
        (fun r => decide (r.id = ({ samplePost 7 none with title := some "second" } : PostRow).id)) =
      [{ samplePost 7 none with title := some "second" }] ∧
    get_post_count (insertOrReplace (insertOrReplace [] { samplePost 7 none with title := some "first" })
        { samplePost 7 none with title := some "second" }) =
      get_post_count (insertOrReplace [] { samplePost 7 none with title := some "first" }) := by
  refine ⟨by simp, ?_⟩
  exact insert_twice_same_id_idempotent []
    { samplePost 7 none with title := some "first" }
    { samplePost 7 none with title := some "second" } (by simp) rfl

/-- C6 counterexample: a 404 response — a client-class (4xx) status — is
NOT classified as end-of-data by `fetch_page`; it raises
`WordPressAPIError` instead of returning the empty record list.  Only
status 400 gets the end-of-data treatment. -/
theorem fetch_page_404_raises :
    fetch_page (fun _ => .status 404) 1 = .error (.httpError 1 404) := rfl

/-- C6 amended: `fetch_page` classifies exactly HTTP status 400 as
end-of-data (returning the empty record list); statuses in the retry
forcelist 429/500/502/503/504 are retried up to 3 times by the transport
and surface as a fatal request error after exhaustion; every other HTTP
error status (including other 4xx statuses such as 404) surfaces as a
fatal error immediately. -/
theorem fetch_page_classification :
    (∀ page, fetch_page (fun _ => .status 400) page = .ok []) ∧
    (∀ page c, 400 ≤ c → c ≠ 400 → c ∉ retryStatusForcelist →
      fetch_page (fun _ => .status c) page = .error (.httpError page c)) ∧
    (∀ page c, c ∈ retryStatusForcelist →
      fetch_page (fun _ => .status c) page = .error (.requestError page)) := by
  refine ⟨fun page => rfl, ?_, ?_⟩
  · intro page c _ hne hnot
    unfold fetch_page sessionGet retryTotal
    simp [sessionGetAux, hnot, hne]
  · intro page c hc
    unfold fetch_page sessionGet retryTotal
    simp [sessionGetAux, hc]

/-- Witness for the amended C6 at concrete statuses: 400 ends the data,
404 errors immediately, 429 errors after retry exhaustion. -/
theorem fetch_page_classification_witness :
    fetch_page (fun _ => .status 400) 2 = .ok [] ∧
    fetch_page (fun _ => .status 404) 2 = .error (.httpError 2 404) ∧
    fetch_page (fun _ => .status 429) 2 = .error (.requestError 2) :=
  ⟨fetch_page_classification.1 2,
   fetch_page_classification.2.1 2 404 (by omega) (by omega) (by decide),
   fetch_page_classification.2.2 2 429 (by decide)⟩

/-- A write against the progress store: a checkpoint
(`update_progress`) or a finalize (`save_scrape_metadata`) for one
source URL. -/
inductive MetaOp where
  | checkpointOp (now : String) (page postsCount : Nat)
  | finalizeOp (now : String) (latest : Option String) (totalPosts lastPage : Nat)
      (nextPage : Option Nat) (search : Option String) (status : String)

/-- Apply one progress-store write for the URL. -/
def applyMetaOp (url : String) (rows : List MetaRow) : MetaOp → List MetaRow
  | .checkpointOp now page postsCount => update_progress rows url now page postsCount
  | .finalizeOp now latest tp lp np sq st =>
    save_scrape_metadata rows url now latest tp lp np sq st

/-- Apply a sequence of progress-store writes for the URL, oldest
first. -/
def applyMetaOps (url : String) (ops : List MetaOp) (rows : List MetaRow) : List MetaRow :=
  ops.foldl (applyMetaOp url) rows

/-- Either write issued against an empty store inserts exactly one row
for the URL. -/
theorem applyMetaOp_empty (url : String) (op : MetaOp) :
    ∃ r, applyMetaOp url [] op = [r] ∧ r.wordpressUrl = url := by
  cases op with
  | checkpointOp now page postsCount =>
    refine ⟨⟨url, now, none, postsCount, page, page + 1, none, "in_progress"⟩, ?_, rfl⟩
    simp [applyMetaOp, update_progress, List.find?]
  | finalizeOp now latest tp lp np sq st =>
    refine ⟨⟨url, now, latest, tp, lp, resolveNextPage np lp, sq, st⟩, ?_, rfl⟩
    simp [applyMetaOp, save_scrape_metadata, List.find?]

/-- Either write issued against a single-row store for the URL updates
that row in place: the store still holds exactly one row for the URL. -/
theorem applyMetaOp_single (url : String) (r : MetaRow) (hr : r.wordpressUrl = url)
    (op : MetaOp) :
    ∃ r2, applyMetaOp url [r] op = [r2] ∧ r2.wordpressUrl = url := by
  have hfind : [r].find? (fun x => decide (x.wordpressUrl = url)) = some r := by
    simp [List.find?, hr]
  cases op with
  | checkpointOp now page postsCount =>
    refine ⟨{ r with lastScrapeDate := now, totalPostsScraped := postsCount, lastPageScraped := page, nextPageToFetch := page + 1, scrapeStatus := "in_progress" }, ?_, hr⟩
    show update_progress [r] url now page postsCount = _
    unfold update_progress
    simp only [hfind]
    simp [replaceFirstMatching, hr]
  | finalizeOp now latest tp lp np sq st =>
    refine ⟨{ wordpressUrl := r.wordpressUrl, lastScrapeDate := now, latestPostModified := latest, totalPostsScraped := tp, lastPageScraped := lp, nextPageToFetch := resolveNextPage np lp, searchQuery := sq, scrapeStatus := st }, ?_, hr⟩
    show save_scrape_metadata [r] url now latest tp lp np sq st = _
    unfold save_scrape_metadata
    simp only [hfind]
    simp [replaceFirstMatching, hr]

/-- A sequence of writes starting from a single-row store for the URL
keeps exactly one row for the URL. -/
theorem applyMetaOps_single (url : String) (ops : List MetaOp) :
    ∀ r, r.wordpressUrl = url →
      ∃ r2, applyMetaOps url ops [r] = [r2] ∧ r2.wordpressUrl = url := by
  induction ops with
  | nil => exact fun r hr => ⟨r, rfl, hr⟩
  | cons op rest ih =>
    intro r hr
    obtain ⟨r1, h1, hu1⟩ := applyMetaOp_single url r hr op
    obtain ⟨r2, h2, hu2⟩ := ih r1 hu1
    refine ⟨r2, ?_, hu2⟩
    show rest.foldl (applyMetaOp url) (applyMetaOp url [r] op) = [r2]
    rw [h1]
    exact h2

/-- C10: starting from an empty progress store, any non-empty sequence
of checkpoint and finalize writes for a single source URL leaves exactly
one metadata row, and it belongs to that URL: the first write inserts,
every later write updates the most recent (only) row in place. -/
theorem progress_store_single_row (url : String) (op : MetaOp) (ops : List MetaOp) :
    ∃ r, applyMetaOps url (op :: ops) [] = [r] ∧ r.wordpressUrl = url := by
  obtain ⟨r1, h1, hu1⟩ := applyMetaOp_empty url op
  obtain ⟨r2, h2, hu2⟩ := applyMetaOps_single url ops r1 hu1
  refine ⟨r2, ?_, hu2⟩
  show ops.foldl (applyMetaOp url) (applyMetaOp url [] op) = [r2]
  rw [h1]
  exact h2

/-- Every event inside the paging loop is a page request or a
checkpoint write, so it is not a finalize write. -/
theorem loopEvent_not_finalize (e : Event) (h : isLoopEvent e = true) :
    isFinalizeEvent e = false := by
  cases e <;> simp_all [isLoopEvent, isFinalizeEvent]

/-- If pages `page .. page+k-1` come back non-empty and the request for
page `page+k` raises, the paging loop ends in `fatalErr`: the store is
untouched when no page was checkpointed (`k = 0`), and otherwise its
most recent row for the URL records the last checkpointed page
`page+k-1` with status `in_progress`; the trace holds only page requests
and checkpoints. -/
theorem pagingLoop_fatal_aux (remote : Remote) (url now : String) :
    ∀ k fuel page pagesFetched acc lastC store,
    k < fuel →
    (∀ i, i < k → ∃ q qs, remote.page (page + i) = .posts (q :: qs)) →
    remote.page (page + k) = .fatal →
    ∃ store2 tr,
      pagingLoop remote url now none none fuel page pagesFetched acc lastC store =
        .fatalErr store2 tr ∧
      tr.all isLoopEvent = true ∧
      (k = 0 → store2 = store) ∧
      (∀ j, k = j + 1 → ∃ r, get_latest_metadata store2 url = some r ∧
        r.lastPageScraped = page + j ∧ r.nextPageToFetch = page + j + 1 ∧
        r.scrapeStatus = "in_progress") := by
  intro k
  induction k with
  | zero =>
    intro fuel page pagesFetched acc lastC store hfuel hpre hfatal
    match fuel, hfuel with
    | f + 1, _ =>
      rw [Nat.add_zero] at hfatal
      refine ⟨store, [.fetchPage page], ?_, rfl, fun _ => rfl, fun j hj => absurd hj (by omega)⟩
      simp [pagingLoop, atMaxPages, hfatal]
  | succ k2 ih =>
    intro fuel page pagesFetched acc lastC store hfuel hpre hfatal
    obtain ⟨q, qs, hq⟩ := hpre 0 (Nat.succ_pos k2)
    rw [Nat.add_zero] at hq
    match fuel, hfuel with
    | f + 1, hfuel =>
      have hk : k2 < f := by omega
      have hpre2 : ∀ i, i < k2 → ∃ q qs, remote.page (page + 1 + i) = .posts (q :: qs) := by
        intro i hi
        have h2 := hpre (i + 1) (by omega)
        rwa [show page + (i + 1) = page + 1 + i by omega] at h2
      have hfatal2 : remote.page (page + 1 + k2) = .fatal := by
        rwa [show page + 1 + k2 = page + (k2 + 1) by omega]
      obtain ⟨store2, tr, hrun, hall, hz, hj⟩ :=
        ih f (page + 1) (pagesFetched + 1) (acc ++ q :: qs) page
          (update_progress store url now page (acc ++ q :: qs).length) hk hpre2 hfatal2
      refine ⟨store2,
        [.fetchPage page, .checkpoint page (acc ++ q :: qs).length] ++ tr, ?_, ?_, ?_, ?_⟩
      · simp only [pagingLoop, atMaxPages]
        rw [hq]
        simp only [if_neg (by simp : ¬((none : Option Nat) = some page))]
        rw [hrun]
        rfl
      · simpa [isLoopEvent] using hall
      · intro h
        exact absurd h (Nat.succ_ne_zero k2)
      · intro j hjeq
        have hjk : j = k2 := by omega
        subst hjk
        cases hk2 : j with
        | zero =>
          subst hk2
          have hstore := hz rfl
          subst hstore
          obtain ⟨r, hget, _, hl, hn, _, hs⟩ :=
            get_latest_update_progress store url now page (acc ++ q :: qs).length
          exact ⟨r, hget, by omega, by omega, hs⟩
        | succ j2 =>
          subst hk2
          obtain ⟨r, hget, h1, h2, h3⟩ := hj j2 rfl
          exact ⟨r, hget, by omega, by omega, h3⟩

/-- If pages `page .. page+k` come back non-empty and the operator
interrupt arrives during the inter-page delay after page `page+k`, the
paging loop ends in `interruptedRun`: the most recent row for the URL
records the checkpoint of page `page+k` with status `in_progress`, and
the trace holds only page requests and checkpoints (no finalize). -/
theorem pagingLoop_interrupt_aux (remote : Remote) (url now : String) :
    ∀ k fuel page pagesFetched acc lastC store,
    k < fuel →
    (∀ i, i ≤ k → ∃ q qs, remote.page (page + i) = .posts (q :: qs)) →
    ∃ store2 tr,
      pagingLoop remote url now none (some (page + k)) fuel page pagesFetched acc
          lastC store = .interruptedRun store2 tr ∧
      tr.all isLoopEvent = true ∧
      ∃ r, get_latest_metadata store2 url = some r ∧
        r.lastPageScraped = page + k ∧ r.nextPageToFetch = page + k + 1 ∧
        r.scrapeStatus = "in_progress" := by
  intro k
  induction k with
  | zero =>
    intro fuel page pagesFetched acc lastC store hfuel hpre
    obtain ⟨q, qs, hq⟩ := hpre 0 (Nat.le_refl 0)
    rw [Nat.add_zero] at hq
    match fuel, hfuel with
    | f + 1, _ =>
      refine ⟨update_progress store url now page (acc ++ q :: qs).length,
        [.fetchPage page, .checkpoint page (acc ++ q :: qs).length], ?_, rfl, ?_⟩
      · simp only [pagingLoop, atMaxPages]
        rw [hq]
        simp
      · obtain ⟨r, hget, _, hl, hn, _, hs⟩ :=
          get_latest_update_progress store url now page (acc ++ q :: qs).length
        exact ⟨r, hget, by omega, by omega, hs⟩
  | succ k2 ih =>
    intro fuel page pagesFetched acc lastC store hfuel hpre
    obtain ⟨q, qs, hq⟩ := hpre 0 (Nat.zero_le _)
    rw [Nat.add_zero] at hq
    match fuel, hfuel with
    | f + 1, hfuel =>
      have hk : k2 < f := by omega
      have hpre2 : ∀ i, i ≤ k2 → ∃ q qs, remote.page (page + 1 + i) = .posts (q :: qs) := by
        intro i hi
        have h2 := hpre (i + 1) (by omega)
        rwa [show page + (i + 1) = page + 1 + i by omega] at h2
      obtain ⟨store2, tr, hrun, hall, hr⟩ :=
        ih f (page + 1) (pagesFetched + 1) (acc ++ q :: qs) page
          (update_progress store url now page (acc ++ q :: qs).length) hk hpre2
      refine ⟨store2,
        [.fetchPage page, .checkpoint page (acc ++ q :: qs).length] ++ tr, ?_, ?_, ?_⟩
      · simp only [pagingLoop, atMaxPages]
        rw [hq]
        simp only [if_neg (show ¬((some (page + (k2 + 1)) : Option Nat) = some page) by simp)]
        rw [show page + (k2 + 1) = page + 1 + k2 by omega, hrun]
        rfl
      · simpa [isLoopEvent] using hall
      · obtain ⟨r, hget, h1, h2, h3⟩ := hr
        exact ⟨r, hget, by omega, by omega, h3⟩

/-- The search-consistency check never fires when the stored and
requested filters are equal. -/
theorem searchMismatchAborts_self (s : Option String) : searchMismatchAborts s s = false := by
  simp [searchMismatchAborts]

/-- With neither resume nor update requested and a valid endpooint,
`run_scraper` runs the standard scrape from the configured start page. -/
theorem runScraper_standard (cfg : ScraperCfg) (store0 : List MetaRow) (db0 : List PostRow)
    (remote : Remote) (now : String) (interrupt : Option Nat) (fuel : Nat)
    (hv : remote.valid = true) :
    runScraper cfg false false store0 db0 remote now interrupt fuel =
      scrapeAndFinish cfg now store0 db0 remote
        [.validateEndpoint, .createMetaTable, .createPostsTable] cfg.startPage
        interrupt fuel := by
  unfold runScraper
  simp [hv]

/-- C7: a fatal remote error while fetching page `N+1`, after pages `1..N`
were fetched and checkpointed, makes `run_scraper` report failure; the
authoritative session row keeps status `in_progress` with
`last_page_scraped = N` and `next_page_to_fetch = N+1`; the entity store
is left exactly as it was (nothing is deleted or rolled back); and no
finalize write — in particular no `complete` status — ever happens. -/
theorem fatal_abort_preserves_progress (cfg : ScraperCfg) (store0 : List MetaRow)
    (db0 : List PostRow) (remote : Remote) (now : String) (fuel N : Nat)
    (hv : remote.valid = true) (hmax : cfg.maxPages = none) (hstart : cfg.startPage = 1)
    (hN : 1 ≤ N) (hfuel : N < fuel)
    (hok : ∀ p, 1 ≤ p → p ≤ N → ∃ q qs, remote.page p = .posts (q :: qs))
    (hfatal : remote.page (N + 1) = .fatal) :
    (runScraper cfg false false store0 db0 remote now none fuel).outcome = .failure ∧
    (runScraper cfg false false store0 db0 remote now none fuel).db = db0 ∧
    (∃ r, get_latest_metadata
        (runScraper cfg false false store0 db0 remote now none fuel).store
        cfg.wordpressUrl = some r ∧
      r.scrapeStatus = "in_progress" ∧ r.lastPageScraped = N ∧
      r.nextPageToFetch = N + 1) ∧
    (runScraper cfg false false store0 db0 remote now none fuel).trace.all
      (fun e => !(isFinalizeEvent e)) = true := by
  obtain ⟨store2, tr, hrun, hall, hz, hj⟩ :=
    pagingLoop_fatal_aux remote cfg.wordpressUrl now N fuel 1 0 [] 0 store0 hfuel
      (fun i hi => hok (1 + i) (by omega) (by omega))
      (by rwa [show (1 : Nat) + N = N + 1 by omega])
  rw [runScraper_standard cfg store0 db0 remote now none fuel hv, hstart]
  unfold scrapeAndFinish
  rw [hmax, hrun]
  refine ⟨rfl, rfl, ?_, ?_⟩
  · obtain ⟨r, hget, h1, h2, h3⟩ := hj (N - 1) (by omega)
    exact ⟨r, hget, h3, by omega, by omega⟩
  · show (([Event.validateEndpoint, Event.createMetaTable, Event.createPostsTable] ++
      [Event.getTotalCount]) ++ tr).all (fun e => !(isFinalizeEvent e)) = true
    rw [List.all_append,
      show ([Event.validateEndpoint, Event.createMetaTable, Event.createPostsTable] ++
        [Event.getTotalCount]).all (fun e => !(isFinalizeEvent e)) = true from rfl,
      Bool.true_and]
    rw [List.all_eq_true] at hall ⊢
    intro e he
    simp [loopEvent_not_finalize e (hall e he)]

/-- Fixture configuration: plain full scrape of one source. -/
def wordpressCfg : ScraperCfg := { wordpressUrl := "https://example.com/" }

/-- Fixture remote: pages 1 and 2 hold one post each, the request for
page 3 raises a fatal error. -/
def twoPageFatalRemote : Remote :=
  { page := fun p => if p ≤ 2 then .posts [samplePost (Int.ofNat p) none] else .fatal
    modified := fun _ _ => .posts [] }

/-- Witness for C7 at a concrete input: two committed pages, a fatal
error on page 3. -/
theorem fatal_abort_preserves_progress_witness :
    (runScraper wordpressCfg false false [] [] twoPageFatalRemote "t0" none 4).outcome =
      .failure ∧
    (runScraper wordpressCfg false false [] [] twoPageFatalRemote "t0" none 4).db = [] ∧
    (∃ r, get_latest_metadata
        (runScraper wordpressCfg false false [] [] twoPageFatalRemote "t0" none 4).store
        wordpressCfg.wordpressUrl = some r ∧
      r.scrapeStatus = "in_progress" ∧ r.lastPageScraped = 2 ∧
      r.nextPageToFetch = 2 + 1) ∧
    (runScraper wordpressCfg false false [] [] twoPageFatalRemote "t0" none 4).trace.all
      (fun e => !(isFinalizeEvent e)) = true :=
  fatal_abort_preserves_progress wordpressCfg [] [] twoPageFatalRemote "t0" 4 2
    rfl rfl rfl (by omega) (by omega)
    (fun p h1 h2 => ⟨samplePost (Int.ofNat p) none, [], by simp [twoPageFatalRemote, h2]⟩)
    rfl

/-- C8 counterexample: an operator interrupt delivered during the
inter-page delay after page 1's checkpoint ends the run as interrupted,
but the session is NOT finalized with status `interrupted`: no finalize
write appears in the trace, and the session row keeps status
`in_progress` — exactly what the claim says never happens.
(`KeyboardInterrupt` has no handler in `run_scraper`; `main` catches it
and exits with code 130 without touching the metadata store.) -/
theorem interrupt_not_finalized_cex :
    (runScraper wordpressCfg false false [] [] twoPageFatalRemote "t0" (some 1) 4).outcome =
      .interrupted ∧
    (get_latest_metadata
        (runScraper wordpressCfg false false [] [] twoPageFatalRemote "t0" (some 1) 4).store
        wordpressCfg.wordpressUrl).map (fun r => r.scrapeStatus) = some "in_progress" ∧
    (runScraper wordpressCfg false false [] [] twoPageFatalRemote "t0" (some 1) 4).trace.all
      (fun e => !(isFinalizeEvent e)) = true := by
  refine ⟨rfl, rfl, rfl⟩

/-- C8 amended: on an operator interrupt delivered during the
inter-page delay after page `N`'s checkpoint, the paging loop stops
before the next page's fetch and `KeyboardInterrupt` propagates out of
`run_scraper` (main exits with code 130) WITHOUT finalizing: no write
with status `interrupted` (or any finalize) occurs, and the session row
keeps status `in_progress` from the last committed checkpoint, with
`last_page_scraped = N`. -/
theorem interrupt_exits_without_finalize (cfg : ScraperCfg) (store0 : List MetaRow)
    (db0 : List PostRow) (remote : Remote) (now : String) (fuel N : Nat)
    (hv : remote.valid = true) (hmax : cfg.maxPages = none) (hstart : cfg.startPage = 1)
    (hN : 1 ≤ N) (hfuel : N < fuel)
    (hok : ∀ p, 1 ≤ p → p ≤ N → ∃ q qs, remote.page p = .posts (q :: qs)) :
    (runScraper cfg false false store0 db0 remote now (some N) fuel).outcome =
      .interrupted ∧
    mainExitCode (runScraper cfg false false store0 db0 remote now (some N) fuel).outcome =
      130 ∧
    (∃ r, get_latest_metadata
        (runScraper cfg false false store0 db0 remote now (some N) fuel).store
        cfg.wordpressUrl = some r ∧
      r.scrapeStatus = "in_progress" ∧ r.lastPageScraped = N ∧
      r.nextPageToFetch = N + 1) ∧
    (runScraper cfg false false store0 db0 remote now (some N) fuel).trace.all
      (fun e => !(isFinalizeEvent e)) = true := by
  have hloop := pagingLoop_interrupt_aux remote cfg.wordpressUrl now (N - 1) fuel 1 0 [] 0
    store0 (by omega) (fun i hi => hok (1 + i) (by omega) (by omega))
  rw [show (1 : Nat) + (N - 1) = N by omega] at hloop
  obtain ⟨store2, tr, hrun, hall, r, hget, hl, hn, hs⟩ := hloop
  rw [runScraper_standard cfg store0 db0 remote now (some N) fuel hv, hstart]
  unfold scrapeAndFinish
  rw [hmax, hrun]
  refine ⟨rfl, rfl, ⟨r, hget, hs, hl, hn⟩, ?_⟩
  show (([Event.validateEndpoint, Event.createMetaTable, Event.createPostsTable] ++
    [Event.getTotalCount]) ++ tr).all (fun e => !(isFinalizeEvent e)) = true
  rw [List.all_append,
    show ([Event.validateEndpoint, Event.createMetaTable, Event.createPostsTable] ++
      [Event.getTotalCount]).all (fun e => !(isFinalizeEvent e)) = true from rfl,
    Bool.true_and]
  rw [List.all_eq_true] at hall ⊢
  intro e he
  simp [loopEvent_not_finalize e (hall e he)]

/-- Witness for the amended C8 at a concrete input: interrupt during
the delay after page 2. -/
theorem interrupt_exits_without_finalize_witness :
    (runScraper wordpressCfg false false [] [] twoPageFatalRemote "t0" (some 2) 4).outcome =
      .interrupted ∧
    mainExitCode
      (runScraper wordpressCfg false false [] [] twoPageFatalRemote "t0" (some 2) 4).outcome =
      130 ∧
    (∃ r, get_latest_metadata
        (runScraper wordpressCfg false false [] [] twoPageFatalRemote "t0" (some 2) 4).store
        wordpressCfg.wordpressUrl = some r ∧
      r.scrapeStatus = "in_progress" ∧ r.lastPageScraped = 2 ∧
      r.nextPageToFetch = 2 + 1) ∧
    (runScraper wordpressCfg false false [] [] twoPageFatalRemote "t0" (some 2) 4).trace.all
      (fun e => !(isFinalizeEvent e)) = true :=
  interrupt_exits_without_finalize wordpressCfg [] [] twoPageFatalRemote "t0" 4 2
    rfl rfl rfl (by omega) (by omega)
    (fun p h1 h2 => ⟨samplePost (Int.ofNat p) none, [], by simp [twoPageFatalRemote, h2]⟩)

/-- Fixture remote: page 1 holds one post, every later page is empty;
the update endpoint returns no records. -/
def onePageRemote : Remote :=
  { page := fun p => if p = 1 then .posts [samplePost 1 (some "2024-01-01T00:00:00")]
      else .posts []
    modified := fun _ _ => .posts [] }

/-- C1 (code bug): `run_scraper` writes the `update_progress` checkpoint
for page 1 (trace position 5) strictly before the single
`insert_posts_batch` upsert (trace position 7), which only happens after
the whole loop — checkpoint-then-store, not store-then-checkpoint.
Consequently a crash (here: operator interrupt) right after page 1's
checkpoint leaves `next_page_to_fetch = 2` and
`total_posts_scraped = 1` in the progress store while the entity store
holds NO records: a subsequent resume would skip page 1 and its records
would never be stored. -/
theorem checkpoint_written_before_upsert :
    (runScraper wordpressCfg false false [] [] onePageRemote "t0" none 5).trace =
      [Event.validateEndpoint, Event.createMetaTable, Event.createPostsTable,
       Event.getTotalCount, Event.fetchPage 1, Event.checkpoint 1 1,
       Event.fetchPage 2, Event.upsertBatch 1, Event.finalize "complete" 1] ∧
    (runScraper wordpressCfg false false [] [] onePageRemote "t0" (some 1) 5).db = [] ∧
    (get_latest_metadata
        (runScraper wordpressCfg false false [] [] onePageRemote "t0" (some 1) 5).store
        wordpressCfg.wordpressUrl).map
      (fun r => (r.nextPageToFetch, r.lastPageScraped, r.totalPostsScraped)) =
      some (2, 1, 1) := by
  refine ⟨rfl, rfl, rfl⟩

/-- Progress-store fixture: a prior in-progress session checkpointed
through page 3 (next page 4) whose finalize recorded a watermark, with
no search filter. -/
def watermarkStore : List MetaRow :=
  [{ wordpressUrl := "https://example.com/", lastScrapeDate := "2024-01-10",
     latestPostModified := some "2024-01-10T00:00:00", totalPostsScraped := 30,
     lastPageScraped := 3, nextPageToFetch := 4, searchQuery := none,
     scrapeStatus := "complete" }]

/-- C3 counterexample: with BOTH `--resume` and `--update` requested
against a stored session that has `next_page_to_fetch = 4` and a
watermark, the run performs the update-mode fetch
(`fetch_modified_since` with the stored watermark) and issues NO
page-numbered fetch at all — in particular it does not continue the
paging loop at page 4.  Update, not resume, takes precedence. -/
theorem resume_update_precedence_cex :
    Event.fetchModifiedSince "2024-01-10T00:00:00" none ∈
      (runScraper wordpressCfg true true watermarkStore [] onePageRemote "t0" none 5).trace ∧
    (runScraper wordpressCfg true true watermarkStore [] onePageRemote "t0" none 5).trace.all
      (fun e => !(isFetchPageEvent e)) = true := by
  refine ⟨by decide, rfl⟩

/-- C3 amended: when both resume and update are requested for a source
whose stored session carries a (truthy) latest-modified watermark and
whose stored filter matches the requested one, update takes precedence:
the run performs the update-mode fetch of records modified after the
stored watermark and never issues a page-numbered fetch.  (Resume's
start page would only govern if no watermark were stored.) -/
theorem update_takes_precedence_over_resume (cfg : ScraperCfg) (store0 : List MetaRow)
    (db0 : List PostRow) (remote : Remote) (now : String) (interrupt : Option Nat)
    (fuel : Nat) (T : String) (hv : remote.valid = true)
    (hsq : get_search_query store0 cfg.wordpressUrl = cfg.search)
    (hmod : get_latest_modified_date store0 cfg.wordpressUrl = some T) (hT : ¬(T = "")) :
    Event.fetchModifiedSince T cfg.search ∈
      (runScraper cfg true true store0 db0 remote now interrupt fuel).trace ∧
    (runScraper cfg true true store0 db0 remote now interrupt fuel).trace.all
      (fun e => !(isFetchPageEvent e)) = true := by
  simp only [runScraper]
  rw [hv, hsq, searchMismatchAborts_self, hmod]
  simp only [Bool.not_true, Bool.false_eq_true, if_false, Bool.true_and, Bool.and_false,
    if_neg hT]
  cases hrm : remote.modified T cfg.search with
  | fatal => simp [isFetchPageEvent]
  | posts ps =>
    cases ps with
    | nil => simp [isFetchPageEvent]
    | cons p rest =>
      simp [finishRun, isFetchPageEvent, List.all_append]

/-- Config fixture: scrape with search filter `"drone"`. -/
def droneCfg : ScraperCfg :=
  { wordpressUrl := "https://example.com/", search := some "drone" }

/-- Progress-store fixture: prior session with filter `"drone"`,
checkpointed through page 3, watermark recorded. -/
def droneWatermarkStore : List MetaRow :=
  [{ wordpressUrl := "https://example.com/", lastScrapeDate := "2024-01-10",
     latestPostModified := some "2024-01-10T00:00:00", totalPostsScraped := 30,
     lastPageScraped := 3, nextPageToFetch := 4, searchQuery := some "drone",
     scrapeStatus := "complete" }]

/-- Witness for the amended C3 at a concrete input: both flags with a
matching `"drone"` filter and a stored watermark. -/
theorem update_takes_precedence_over_resume_witness :
    Event.fetchModifiedSince "2024-01-10T00:00:00" droneCfg.search ∈
      (runScraper droneCfg true true droneWatermarkStore [] onePageRemote "t0" none 5).trace ∧
    (runScraper droneCfg true true droneWatermarkStore [] onePageRemote "t0" none 5).trace.all
      (fun e => !(isFetchPageEvent e)) = true :=
  update_takes_precedence_over_resume droneCfg droneWatermarkStore [] onePageRemote "t0"
    none 5 "2024-01-10T00:00:00" rfl rfl rfl (by decide)

/-- Config fixture: scrape with search filter `"satellite"`. -/
def satCfg : ScraperCfg :=
  { wordpressUrl := "https://example.com/", search := some "satellite" }

/-- Progress-store fixture: prior in-progress session with filter
`"drone"`, checkpointed through page 3. -/
def droneStore : List MetaRow :=
  [{ wordpressUrl := "https://example.com/", lastScrapeDate := "2024-01-10",
     totalPostsScraped := 30, lastPageScraped := 3, nextPageToFetch := 4,
     searchQuery := some "drone", scrapeStatus := "in_progress" }]

/-- Progress-store fixture: prior session whose stored filter is the
empty string (a user ran `--search ""`). -/
def emptyFilterStore : List MetaRow :=
  [{ wordpressUrl := "https://example.com/", lastScrapeDate := "2024-01-10",
     totalPostsScraped := 30, lastPageScraped := 3, nextPageToFetch := 4,
     searchQuery := some "", scrapeStatus := "in_progress" }]

/-- C4 counterexample, two parts.  (1) A resume with stored filter
`"drone"` and requested filter `"satellite"` IS rejected, but only
after the endpoint validation request and the table creations: the
rejection does not happen "before any network or storage activity" —
`validateEndpoint` is already in the trace.  (2) A stored empty-string
filter versus a requested null filter is a "stored non-null versus
requested null" difference, yet the run is NOT rejected at all (Python
compares the filters by truthiness): it proceeds and even finishes
successfully. -/
theorem mismatch_abort_cex :
    (runScraper satCfg false true droneStore [] onePageRemote "t0" none 5).outcome =
      .failure ∧
    (runScraper satCfg false true droneStore [] onePageRemote "t0" none 5).trace =
      [Event.validateEndpoint, Event.createMetaTable, Event.createPostsTable] ∧
    (some "" ≠ (none : Option String)) ∧
    (runScraper wordpressCfg false true emptyFilterStore [] onePageRemote "t0" none 5).outcome =
      .success := by
  refine ⟨rfl, rfl, by decide, rfl⟩

/-- C4 amended: a resume- or update-mode run whose stored filter and
requested filter differ as Python truthiness sees them (they are
unequal and at least one is a non-empty string — a stored empty string
versus a requested null, or vice versa, does not count) is rejected by
returning failure with both stores unchanged and no page fetch, no
update fetch, no checkpoint, no upsert and no finalize issued; the
endpoint-validation network request and the table creations have
already happened by then. -/
theorem mismatch_rejected_before_any_fetch (cfg : ScraperCfg) (update resume : Bool)
    (store0 : List MetaRow) (db0 : List PostRow) (remote : Remote) (now : String)
    (interrupt : Option Nat) (fuel : Nat) (hv : remote.valid = true)
    (hflag : resume || update = true)
    (hmis : searchMismatchAborts (get_search_query store0 cfg.wordpressUrl) cfg.search =
      true) :
    runScraper cfg update resume store0 db0 remote now interrupt fuel =
      ⟨.failure, store0, db0,
        [Event.validateEndpoint, Event.createMetaTable, Event.createPostsTable]⟩ := by
  cases resume with
  | true =>
    simp only [runScraper]
    rw [hv, hmis]
    simp
  | false =>
    have hup : update = true := by simpa using hflag
    subst hup
    simp only [runScraper]
    rw [hv, hmis]
    simp

/-- Witness for the amended C4: stored `"drone"` versus requested
`"satellite"` on a resume run. -/
theorem mismatch_rejected_before_any_fetch_witness :
    runScraper satCfg false true droneStore [] onePageRemote "t1" none 5 =
      ⟨.failure, droneStore, [],
        [Event.validateEndpoint, Event.createMetaTable, Event.createPostsTable]⟩ :=
  mismatch_rejected_before_any_fetch satCfg false true droneStore [] onePageRemote "t1"
    none 5 rfl rfl (by decide)

/-- C9: an update-mode run against a stored session whose watermark is
`T` issues the modified-since fetch with exactly `T` (and the requested
filter); when the remote returns zero records the run succeeds as a
no-op: the progress store, the entity store and every checkpoint field
are returned exactly as they were. -/
theorem update_noop_preserves_checkpoint (cfg : ScraperCfg) (store0 : List MetaRow)
    (db0 : List PostRow) (remote : Remote) (now : String) (interrupt : Option Nat)
    (fuel : Nat) (T : String) (hv : remote.valid = true)
    (hsq : get_search_query store0 cfg.wordpressUrl = cfg.search)
    (hmod : get_latest_modified_date store0 cfg.wordpressUrl = some T) (hT : ¬(T = ""))
    (hempty : remote.modified T cfg.search = .posts []) :
    runScraper cfg true false store0 db0 remote now interrupt fuel =
      ⟨.success, store0, db0,
        [Event.validateEndpoint, Event.createMetaTable, Event.createPostsTable,
         Event.fetchModifiedSince T cfg.search]⟩ := by
  simp only [runScraper]
  rw [hv, hsq, searchMismatchAborts_self, hmod]
  simp [if_neg hT, hempty]

/-- Witness for C9 at a concrete input: watermark
`2024-01-10T00:00:00`, remote returning zero modified records. -/
theorem update_noop_preserves_checkpoint_witness :
    runScraper wordpressCfg true false watermarkStore [] onePageRemote "t0" none 5 =
      ⟨.success, watermarkStore, [],
        [Event.validateEndpoint, Event.createMetaTable, Event.createPostsTable,
         Event.fetchModifiedSince "2024-01-10T00:00:00" wordpressCfg.search]⟩ :=
  update_noop_preserves_checkpoint wordpressCfg watermarkStore [] onePageRemote "t0"
    none 5 "2024-01-10T00:00:00" rfl rfl rfl (by decide) rfl
